import Mathlib

/-!
Shallow embedding of the CDG karaoke player `pycdg.py` (class `cdgPlayer`),
covering the playback synchronizer (`doStuff`), rewind (`doRewind`), resize
(`doResize`), the screen-refresh machinery (`cdgDisplayUpdate`), the
initialiser's error paths (`__init__`) and the tile-grid constants.

Conventions of the embedding:
* Python 2 integers are `ℤ`; Python 2 `/` on integers is floor division,
  embedded as `Int.fdiv`.
* The single Python float in scope, `ms_per_update = 1000.0 / fps`, is
  embedded as an exact rational (`ℚ`); the comparison it participates in,
  `(curr_pos - LastPos) > ms_per_update`, compares an integer against it
  and is insensitive to the float rounding of `1000.0 / fps`.
* The packet reader lives in the companion module `_pycdgAux`, which is not
  part of this repository's shown source; the `CdgPacketReader` operations
  below are therefore modelled from the spec and carry doc comments saying
  exactly what is modelled.
* External side effects (pygame display fills, mixer calls, callbacks) are
  modelled as explicit fields or returned logs; clock reads are passed in
  as arguments.
-/

namespace PyCdg

/-- Width of the visible CDG display area (source constant
`CDG_DISPLAY_WIDTH = 294`). -/
def CDG_DISPLAY_WIDTH : ℕ := 294

/-- Height of the visible CDG display area (source constant
`CDG_DISPLAY_HEIGHT = 204`). -/
def CDG_DISPLAY_HEIGHT : ℕ := 204

/-- Full CDG surface width including the border (source constant
`CDG_FULL_WIDTH = 300`). -/
def CDG_FULL_WIDTH : ℕ := 300

/-- Full CDG surface height including the border (source constant
`CDG_FULL_HEIGHT = 216`). -/
def CDG_FULL_HEIGHT : ℕ := 216

/-- Number of tile columns across the display (source constant
`TILES_PER_ROW = 6`). -/
def TILES_PER_ROW : ℕ := 6

/-- Number of tile rows down the display (source constant
`TILES_PER_COL = 4`). -/
def TILES_PER_COL : ℕ := 4

/-- Tile width in pixels, `CDG_DISPLAY_WIDTH / TILES_PER_ROW` (Python 2
integer floor division on two positive ints). -/
def TILE_WIDTH : ℕ := CDG_DISPLAY_WIDTH / TILES_PER_ROW

/-- Tile height in pixels, `CDG_DISPLAY_HEIGHT / TILES_PER_COL`. -/
def TILE_HEIGHT : ℕ := CDG_DISPLAY_HEIGHT / TILES_PER_COL

/-- An RGB colour value as handed around by pygame (one triple per
channel). -/
abbrev Colour := ℕ × ℕ × ℕ

/-- Playback state of the player (the source's `STATE_PLAYING` etc. from
`pykconstants`). -/
inductive PlayState where
  | playing
  | paused
  | stopped
deriving DecidableEq

/-- Zoom mode selected by `manager.options.zoom_mode` (one of the strings
`none`, `quick`, `int`, `soft` in the source). -/
inductive ZoomMode where
  | modeNone
  | modeQuick
  | modeInt
  | modeSoft
deriving DecidableEq

/-- Modelled from the spec: the packet reader of `_pycdgAux` (class
`CdgPacketReader`), whose source is not part of this repository.  Only the
observable interface used by `pycdg.py` is modelled: how many whole 24-byte
packets the stream holds, how many have been consumed, the border colour it
reports through `GetBorderColour`, and the dirty flags of the 4×6 tile grid
(spec: "4 rows × 6 columns of booleans").  Packet payload interpretation
(pixel and palette effects) is outside every claim checked here and is not
modelled. -/
structure CdgPacketReader where
  totalPackets : ℕ
  packetsRead : ℕ
  borderColour : Option Colour
  tiles : Fin TILES_PER_COL → Fin TILES_PER_ROW → Bool

/-- Modelled from the spec: `CdgPacketReader.DoPackets(numPackets)` reads
and interprets the next `numPackets` packets, "advances by a
caller-requested count, reporting end-of-stream"; it returns a falsy value
exactly when the stream runs out before delivering the requested count, and
it never reads past the end of the stream. -/
def CdgPacketReader.DoPackets (r : CdgPacketReader) (numPackets : ℕ) :
    CdgPacketReader × Bool :=
  ({ r with packetsRead := min (r.packetsRead + numPackets) r.totalPackets },
   decide (r.packetsRead + numPackets ≤ r.totalPackets))

/-- Modelled from the spec: `CdgPacketReader.MarkTilesDirty()` "sets every
tile dirty (used by global operations and on an external resize/mode-change
notification)". -/
def CdgPacketReader.MarkTilesDirty (r : CdgPacketReader) : CdgPacketReader :=
  { r with tiles := fun _ _ => true }

/-- Modelled from the spec: `CdgPacketReader.Rewind()` "resets to the first
packet" — the stream is re-opened at its starting offset. -/
def CdgPacketReader.Rewind (r : CdgPacketReader) : CdgPacketReader :=
  { r with packetsRead := 0 }

/-- Modelled from the spec: `CdgPacketReader.GetBorderColour()` reports the
resolved RGB border colour, or `none` when no Border Preset has been seen. -/
def CdgPacketReader.GetBorderColour (r : CdgPacketReader) : Option Colour :=
  r.borderColour

/-- The mutable state of a `cdgPlayer` instance: the fields assigned in
`__init__`, `doStuff`, `doPause`/`doUnpause`, `doRewind` and
`computeDisplaySize`, plus a model of the pygame display (`displayFill`
records the colour of the most recent full-screen `manager.display.fill`). -/
structure CdgState where
  State : PlayState
  nomusic : Bool
  zoom_mode : ZoomMode
  cdgReadPackets : ℤ
  cdgPacketsDue : ℤ
  curr_pos : ℤ
  LastPos : ℤ
  PlayTime : ℤ
  PlayStartTime : ℤ
  PauseStartTime : ℤ
  pauseOffsetTime : ℤ
  InternalOffsetTime : ℤ
  UserOffsetTime : ℤ
  ms_per_update : ℚ
  borderColour : Option Colour
  displayFill : Option Colour
  packetReader : CdgPacketReader
  displayScale : ℚ
  displayRowOffset : ℤ
  displayColOffset : ℤ
  displayTileWidth : ℤ
  displayTileHeight : ℤ

/-- Modelled from the spec: `pykPlayer.Close()` (from `pykplayer`, not in
this repository's shown source) stops playback — "the caller is expected to
stop playback on this outcome". -/
def Close (s : CdgState) : CdgState :=
  { s with State := .stopped }

/-- The song position used by `doStuff`:
`self.GetPos() - self.InternalOffsetTime - self.UserOffsetTime -
self.pauseOffsetTime`, with the raw `GetPos()` clock reading passed in. -/
def currPosOf (s : CdgState) (pos : ℤ) : ℤ :=
  pos - s.InternalOffsetTime - s.UserOffsetTime - s.pauseOffsetTime

/-- The border-colour half of `cdgDisplayUpdate`: fetch the reader's border
colour, and when it changed, remember it; when additionally non-null, fill
the whole display with it and mark all tiles dirty.  The remainder of the
Python routine only blits dirty tiles to the external display and touches
none of the modelled state. -/
def cdgDisplayUpdate (s : CdgState) : CdgState :=
  let borderColour := s.packetReader.GetBorderColour
  if borderColour ≠ s.borderColour then
    let s1 := { s with borderColour := borderColour }
    if borderColour ≠ none then
      { s1 with displayFill := borderColour,
                packetReader := s1.packetReader.MarkTilesDirty }
    else s1
  else s

/-- Truncation toward zero, the behaviour of Python's `int()` on a float. -/
def pyint (q : ℚ) : ℤ :=
  Int.tdiv q.num q.den

/-- Embedding of `computeDisplaySize`: letterbox scale selection and the
derived tile geometry.  Python float arithmetic is carried out exactly in
`ℚ`; `int()` is truncation and `math.ceil` is the rational ceiling; the
divisions `(winWidth - scaledWidth) / 2` and `scaledWidth / TILES_PER_ROW`
are Python 2 integer floor divisions. -/
def computeDisplaySize (s : CdgState) (winWidth winHeight : ℤ) : CdgState :=
  let scale0 : ℚ := min ((winWidth : ℚ) / (CDG_DISPLAY_WIDTH : ℚ))
                        ((winHeight : ℚ) / (CDG_DISPLAY_HEIGHT : ℚ))
  let scale : ℚ :=
    if s.zoom_mode = .modeNone then 1
    else if s.zoom_mode = .modeInt then
      (if scale0 < 1 then 1 / ((⌈1 / scale0⌉ : ℤ) : ℚ) else ((pyint scale0 : ℤ) : ℚ))
    else scale0
  let scaledWidth : ℤ := pyint (scale * (CDG_DISPLAY_WIDTH : ℚ))
  let scaledHeight : ℤ := pyint (scale * (CDG_DISPLAY_HEIGHT : ℚ))
  { s with
    displayScale := scale
    displayRowOffset := Int.fdiv (winWidth - scaledWidth) 2
    displayColOffset := Int.fdiv (winHeight - scaledHeight) 2
    displayTileWidth :=
      if s.zoom_mode = .modeQuick ∨ s.zoom_mode = .modeInt then
        Int.fdiv scaledWidth (TILES_PER_ROW : ℤ)
      else Int.fdiv (CDG_DISPLAY_WIDTH : ℤ) (TILES_PER_ROW : ℤ)
    displayTileHeight :=
      if s.zoom_mode = .modeQuick ∨ s.zoom_mode = .modeInt then
        Int.fdiv scaledHeight (TILES_PER_COL : ℤ)
      else Int.fdiv (CDG_DISPLAY_HEIGHT : ℤ) (TILES_PER_COL : ℤ) }

/-- Embedding of `doResize`: recompute the display geometry, refill the
display with the remembered border colour when there is one, and mark every
tile dirty. -/
def doResize (s : CdgState) (winWidth winHeight : ℤ) : CdgState :=
  let s1 := computeDisplaySize s winWidth winHeight
  let s2 := if s1.borderColour ≠ none then { s1 with displayFill := s1.borderColour }
            else s1
  { s2 with packetReader := s2.packetReader.MarkTilesDirty }

/-- Embedding of `doPause`.  `posNow` is the external clock reading of the
branch taken: `self.GetPos()` when music plays, `pygame.time.get_ticks()`
under `nomusic`. -/
def doPause (s : CdgState) (posNow : ℤ) : CdgState :=
  if s.nomusic = false then { s with PauseStartTime := posNow }
  else { s with PlayTime := posNow - s.PlayStartTime }

/-- Embedding of `doUnpause`, with `posNow` as in `doPause`. -/
def doUnpause (s : CdgState) (posNow : ℤ) : CdgState :=
  if s.nomusic = false then
    { s with pauseOffsetTime := s.pauseOffsetTime + (posNow - s.PauseStartTime) }
  else { s with PlayStartTime := posNow - s.PlayTime }

/-- Embedding of `doRewind`: reset the packet counters, the playback-time
bookkeeping and the pause fix, and move the packet reader back to the start
of the file.  (The audio rewind/stop calls act on the external mixer
only.) -/
def doRewind (s : CdgState) : CdgState :=
  { s with
    cdgReadPackets := 0
    cdgPacketsDue := 0
    LastPos := 0
    PlayTime := 0
    PlayStartTime := 0
    pauseOffsetTime := 0
    packetReader := s.packetReader.Rewind }

/-- Outcome of one poll: whether `DoPackets` reported end-of-stream. -/
inductive PollOutcome where
  | ok
  | endOfStream
deriving DecidableEq

/-- Everything one call to `doStuff` produces: the successor state, the
list of arguments of the `DoPackets` calls issued during the poll, the
stream outcome, and whether `cdgDisplayUpdate` was invoked. -/
structure PollResult where
  state : CdgState
  doPacketsCalls : List ℤ
  outcome : PollOutcome
  refreshed : Bool

/-- The packet-synchronisation block of `doStuff`: store `curr_pos`,
compute `cdgPacketsDue = int((curr_pos * 300) / 1000)` (Python 2 floor
division), and when more packets are due than have been read, issue one
`DoPackets` call for exactly the difference, close the player if it reports
end of file, and add the requested count to `cdgReadPackets`. -/
def syncPackets (s : CdgState) (curr : ℤ) : CdgState × List ℤ × PollOutcome :=
  let due := Int.fdiv (curr * 300) 1000
  let numPackets := due - s.cdgReadPackets
  let s0 := { s with curr_pos := curr, cdgPacketsDue := due }
  if 0 < numPackets then
    let dp := s0.packetReader.DoPackets numPackets.toNat
    let s1 := { s0 with packetReader := dp.1 }
    let s2 := if dp.2 then s1 else Close s1
    ({ s2 with cdgReadPackets := s2.cdgReadPackets + numPackets },
     [numPackets],
     if dp.2 then .ok else .endOfStream)
  else (s0, [], .ok)

/-- The screen-refresh block of `doStuff`: when the song position has moved
past the last refresh position by more than `ms_per_update`, run
`cdgDisplayUpdate` and record the new refresh position. -/
def checkRefresh (s : CdgState) : CdgState × Bool :=
  if ((s.curr_pos - s.LastPos : ℤ) : ℚ) > s.ms_per_update then
    ({ cdgDisplayUpdate s with LastPos := s.curr_pos }, true)
  else (s, false)

/-- Embedding of `doStuff` (one `Poll`): when playing, compute the song
position from the raw `GetPos()` reading `pos`, catch the packet stream up
to it, then refresh the screen if one is due.  When not playing, nothing
happens.  (`pykPlayer.doStuff`, called first in the source, handles only
event dispatch and touches none of the modelled fields.) -/
def doStuffFull (s : CdgState) (pos : ℤ) : PollResult :=
  if s.State = .playing then
    let curr := currPosOf s pos
    let r1 := syncPackets s curr
    let r2 := checkRefresh r1.1
    ⟨r2.1, r1.2.1, r1.2.2, r2.2⟩
  else ⟨s, [], .ok, false⟩

/-- The state after one poll. -/
def doStuff (s : CdgState) (pos : ℤ) : CdgState :=
  (doStuffFull s pos).state

/-- The song positions at which `cdgDisplayUpdate` fires over a sequence of
polls with the given raw clock readings. -/
def pollEvents (s : CdgState) : List ℤ → List ℤ
  | [] => []
  | pos :: rest =>
    let r := doStuffFull s pos
    (if r.refreshed then [r.state.curr_pos] else []) ++ pollEvents r.state rest

/-- One caller-visible player operation, with any external clock reading or
window size it consumes. -/
inductive PlayerOp where
  | poll (pos : ℤ)
  | pause (posNow : ℤ)
  | unpause (posNow : ℤ)
  | resize (winWidth winHeight : ℤ)
  | displayUpdate
  | rewind
deriving DecidableEq

/-- Apply one player operation to the state. -/
def applyOp (s : CdgState) : PlayerOp → CdgState
  | .poll pos => doStuff s pos
  | .pause t => doPause s t
  | .unpause t => doUnpause s t
  | .resize w h => doResize s w h
  | .displayUpdate => cdgDisplayUpdate s
  | .rewind => doRewind s

/-- Tab-completion fix-up from `__init__`: a file name ending in `.` gets
`cdg` appended.  (Python indexes `FileName[len(FileName)-1]`; the empty
name, on which Python would raise, is not fixed up here.) -/
def adjustFileName (fileName : String) : String :=
  if fileName.back = '.' then fileName ++ "cdg" else fileName

/-- The two string exceptions `__init__` can raise. -/
inductive InitError where
  | noSuchFile
  | noSoundFile
deriving DecidableEq

/-- The player state as assembled at the end of a successful `__init__`
(before the display-geometry pass): all packet counters and playback
bookkeeping at zero, `ms_per_update = 1000 / fps`, no border colour seen
yet, and the packet reader freshly opened on a stream of `totalPackets`
packets. -/
def initState (nomusic : Bool) (zm : ZoomMode) (fps : ℕ)
    (internalOffset userOffset : ℤ) (totalPackets : ℕ) : CdgState :=
  { State := .stopped
    nomusic := nomusic
    zoom_mode := zm
    cdgReadPackets := 0
    cdgPacketsDue := 0
    curr_pos := 0
    LastPos := 0
    PlayTime := 0
    PlayStartTime := 0
    PauseStartTime := 0
    pauseOffsetTime := 0
    InternalOffsetTime := internalOffset
    UserOffsetTime := userOffset
    ms_per_update := 1000 / (fps : ℚ)
    borderColour := none
    displayFill := none
    packetReader :=
      { totalPackets := totalPackets
        packetsRead := 0
        borderColour := none
        tiles := fun _ _ => false }
    displayScale := 1
    displayRowOffset := 0
    displayColOffset := 0
    displayTileWidth := 0
    displayTileHeight := 0 }

/-- Embedding of `__init__`'s control flow.  `isFile` abstracts
`os.path.isfile`; `soundFileSearch` abstracts the directory scan for a
matching `wav`/`ogg`/`mp3` file (`none` when nothing matched); the returned
list collects the strings passed to `ErrorNotifyCallback`, in order.  A
missing CDG file is reported once and raises `NoSuchFile`; with music
enabled, a missing sound file is reported once and raises `NoSoundFile`;
otherwise the player state is built and the display geometry computed. -/
def cdgPlayerInit (isFile : String → Bool) (soundFileSearch : Option String)
    (nomusic : Bool) (zm : ZoomMode) (fps : ℕ)
    (internalOffset userOffset winWidth winHeight : ℤ) (totalPackets : ℕ)
    (fileName : String) : Except InitError CdgState × List String :=
  let name := adjustFileName fileName
  if isFile name = false then
    (.error .noSuchFile, ["No such file: " ++ name])
  else if nomusic = false ∧ soundFileSearch = none then
    (.error .noSoundFile, ["There is no mp3 or ogg file to match " ++ name])
  else
    (.ok (computeDisplaySize
            (initState nomusic zm fps internalOffset userOffset totalPackets)
            winWidth winHeight),
     [])

/-- A freshly initialised player that has been started with `Play()` (state
moved to playing), with both sync offsets zero so the song position of a
poll equals its raw clock reading. -/
def startedState (totalPackets fps : ℕ) : CdgState :=
  { initState true .modeNone fps 0 0 totalPackets with State := .playing }

/-- A started player whose `ms_per_update` is the rational literal 100
(the value `1000.0 / fps` takes at the default 10 fps), used for concrete
evaluations. -/
def sampleState (totalPackets : ℕ) : CdgState :=
  { startedState totalPackets 10 with ms_per_update := 100 }

/-! Projection lemmas for the embedded operations. -/

lemma cdgDisplayUpdate_cdgReadPackets (s : CdgState) :
    (cdgDisplayUpdate s).cdgReadPackets = s.cdgReadPackets := by
  simp only [cdgDisplayUpdate]; split_ifs <;> rfl

lemma cdgDisplayUpdate_cdgPacketsDue (s : CdgState) :
    (cdgDisplayUpdate s).cdgPacketsDue = s.cdgPacketsDue := by
  simp only [cdgDisplayUpdate]; split_ifs <;> rfl

lemma cdgDisplayUpdate_curr_pos (s : CdgState) :
    (cdgDisplayUpdate s).curr_pos = s.curr_pos := by
  simp only [cdgDisplayUpdate]; split_ifs <;> rfl

lemma cdgDisplayUpdate_State (s : CdgState) :
    (cdgDisplayUpdate s).State = s.State := by
  simp only [cdgDisplayUpdate]; split_ifs <;> rfl

lemma cdgDisplayUpdate_ms_per_update (s : CdgState) :
    (cdgDisplayUpdate s).ms_per_update = s.ms_per_update := by
  simp only [cdgDisplayUpdate]; split_ifs <;> rfl

lemma cdgDisplayUpdate_offsets (s : CdgState) :
    (cdgDisplayUpdate s).InternalOffsetTime = s.InternalOffsetTime ∧
    (cdgDisplayUpdate s).UserOffsetTime = s.UserOffsetTime ∧
    (cdgDisplayUpdate s).pauseOffsetTime = s.pauseOffsetTime := by
  simp only [cdgDisplayUpdate]; split_ifs <;> exact ⟨rfl, rfl, rfl⟩

lemma cdgDisplayUpdate_packetsRead (s : CdgState) :
    (cdgDisplayUpdate s).packetReader.packetsRead = s.packetReader.packetsRead := by
  simp only [cdgDisplayUpdate]; split_ifs <;> rfl

lemma syncPackets_cdgReadPackets (s : CdgState) (curr : ℤ) :
    (syncPackets s curr).1.cdgReadPackets =
      max s.cdgReadPackets (Int.fdiv (curr * 300) 1000) := by
  simp only [syncPackets, Close]
  split_ifs <;> dsimp only <;> omega

lemma syncPackets_cdgPacketsDue (s : CdgState) (curr : ℤ) :
    (syncPackets s curr).1.cdgPacketsDue = Int.fdiv (curr * 300) 1000 := by
  simp only [syncPackets, Close]; split_ifs <;> rfl

lemma syncPackets_curr_pos (s : CdgState) (curr : ℤ) :
    (syncPackets s curr).1.curr_pos = curr := by
  simp only [syncPackets, Close]; split_ifs <;> rfl

lemma syncPackets_LastPos (s : CdgState) (curr : ℤ) :
    (syncPackets s curr).1.LastPos = s.LastPos := by
  simp only [syncPackets, Close]; split_ifs <;> rfl

lemma syncPackets_ms_per_update (s : CdgState) (curr : ℤ) :
    (syncPackets s curr).1.ms_per_update = s.ms_per_update := by
  simp only [syncPackets, Close]; split_ifs <;> rfl

lemma syncPackets_offsets (s : CdgState) (curr : ℤ) :
    (syncPackets s curr).1.InternalOffsetTime = s.InternalOffsetTime ∧
    (syncPackets s curr).1.UserOffsetTime = s.UserOffsetTime ∧
    (syncPackets s curr).1.pauseOffsetTime = s.pauseOffsetTime := by
  simp only [syncPackets, Close]; split_ifs <;> exact ⟨rfl, rfl, rfl⟩

lemma syncPackets_calls (s : CdgState) (curr : ℤ) :
    (syncPackets s curr).2.1 =
      if 0 < Int.fdiv (curr * 300) 1000 - s.cdgReadPackets then
        [Int.fdiv (curr * 300) 1000 - s.cdgReadPackets]
      else [] := by
  simp only [syncPackets, Close]; split_ifs <;> rfl

lemma checkRefresh_cdgReadPackets (s : CdgState) :
    (checkRefresh s).1.cdgReadPackets = s.cdgReadPackets := by
  simp only [checkRefresh]
  split_ifs <;> simp [cdgDisplayUpdate_cdgReadPackets]

lemma checkRefresh_cdgPacketsDue (s : CdgState) :
    (checkRefresh s).1.cdgPacketsDue = s.cdgPacketsDue := by
  simp only [checkRefresh]
  split_ifs <;> simp [cdgDisplayUpdate_cdgPacketsDue]

lemma checkRefresh_curr_pos (s : CdgState) :
    (checkRefresh s).1.curr_pos = s.curr_pos := by
  simp only [checkRefresh]
  split_ifs <;> simp [cdgDisplayUpdate_curr_pos]

lemma checkRefresh_State (s : CdgState) :
    (checkRefresh s).1.State = s.State := by
  simp only [checkRefresh]
  split_ifs <;> simp [cdgDisplayUpdate_State]

lemma checkRefresh_ms_per_update (s : CdgState) :
    (checkRefresh s).1.ms_per_update = s.ms_per_update := by
  simp only [checkRefresh]
  split_ifs <;> simp [cdgDisplayUpdate_ms_per_update]

lemma checkRefresh_offsets (s : CdgState) :
    (checkRefresh s).1.InternalOffsetTime = s.InternalOffsetTime ∧
    (checkRefresh s).1.UserOffsetTime = s.UserOffsetTime ∧
    (checkRefresh s).1.pauseOffsetTime = s.pauseOffsetTime := by
  simp only [checkRefresh]
  split_ifs <;> simp [cdgDisplayUpdate_offsets s]

lemma checkRefresh_packetsRead (s : CdgState) :
    (checkRefresh s).1.packetReader.packetsRead = s.packetReader.packetsRead := by
  simp only [checkRefresh]
  split_ifs <;> simp [cdgDisplayUpdate_packetsRead]

lemma checkRefresh_snd (s : CdgState) :
    (checkRefresh s).2 =
      decide (((s.curr_pos - s.LastPos : ℤ) : ℚ) > s.ms_per_update) := by
  simp only [checkRefresh]
  split_ifs with h
  · exact (decide_eq_true h).symm
  · exact (decide_eq_false h).symm

lemma checkRefresh_LastPos (s : CdgState) :
    (checkRefresh s).1.LastPos =
      if ((s.curr_pos - s.LastPos : ℤ) : ℚ) > s.ms_per_update then s.curr_pos
      else s.LastPos := by
  simp only [checkRefresh]
  split_ifs <;> rfl

lemma doStuffFull_not_playing (s : CdgState) (pos : ℤ) (h : ¬ s.State = .playing) :
    doStuffFull s pos = ⟨s, [], .ok, false⟩ := by
  simp only [doStuffFull, if_neg h]

lemma doStuff_cdgReadPackets (s : CdgState) (pos : ℤ) :
    (doStuff s pos).cdgReadPackets =
      if s.State = .playing then
        max s.cdgReadPackets (Int.fdiv (currPosOf s pos * 300) 1000)
      else s.cdgReadPackets := by
  simp only [doStuff, doStuffFull]
  split_ifs <;>
    simp [checkRefresh_cdgReadPackets, syncPackets_cdgReadPackets]

lemma doStuff_mono (s : CdgState) (pos : ℤ) :
    s.cdgReadPackets ≤ (doStuff s pos).cdgReadPackets := by
  rw [doStuff_cdgReadPackets]
  split_ifs <;> simp [le_max_left]

lemma doStuff_ms_per_update (s : CdgState) (pos : ℤ) :
    (doStuff s pos).ms_per_update = s.ms_per_update := by
  simp only [doStuff, doStuffFull]
  split_ifs <;>
    simp [checkRefresh_ms_per_update, syncPackets_ms_per_update]

lemma doStuff_offsets (s : CdgState) (pos : ℤ) :
    (doStuff s pos).InternalOffsetTime = s.InternalOffsetTime ∧
    (doStuff s pos).UserOffsetTime = s.UserOffsetTime ∧
    (doStuff s pos).pauseOffsetTime = s.pauseOffsetTime := by
  simp only [doStuff, doStuffFull]
  split_ifs
  · refine ⟨?_, ?_, ?_⟩ <;>
      simp [(checkRefresh_offsets _).1, (checkRefresh_offsets _).2.1,
        (checkRefresh_offsets _).2.2, (syncPackets_offsets _ _).1,
        (syncPackets_offsets _ _).2.1, (syncPackets_offsets _ _).2.2]
  · exact ⟨rfl, rfl, rfl⟩

lemma fdiv_thousand_mono {a b : ℤ} (h : a ≤ b) :
    Int.fdiv a 1000 ≤ Int.fdiv b 1000 := by
  rw [Int.fdiv_eq_ediv _ (by norm_num), Int.fdiv_eq_ediv _ (by norm_num)]
  exact Int.ediv_le_ediv (by norm_num) h

lemma fdiv_thousand_nonneg {a : ℤ} (h : 0 ≤ a) : 0 ≤ Int.fdiv a 1000 := by
  rw [Int.fdiv_eq_ediv _ (by norm_num)]
  exact Int.ediv_nonneg h (by norm_num)

/-- C9: the visible 294×204 area is partitioned into 6 tile columns by 4
tile rows; the tile width and height computed from the source constants are
exactly 49 and 51 pixels, the integer divisions are exact, and the grid has
24 tiles. -/
theorem tile_grid_constants :
    TILE_WIDTH = 49 ∧ TILE_HEIGHT = 51 ∧
    CDG_DISPLAY_WIDTH % TILES_PER_ROW = 0 ∧
    CDG_DISPLAY_HEIGHT % TILES_PER_COL = 0 ∧
    TILES_PER_ROW * TILES_PER_COL = 24 := by decide

/-- C4: after `doRewind` the consumed-packet count and the packets-due
counter are zero, the last refresh position, play time and pause offset are
reset to zero, and the packet reader is back at the start of the stream. -/
theorem doRewind_resets (s : CdgState) :
    (doRewind s).cdgReadPackets = 0 ∧ (doRewind s).cdgPacketsDue = 0 ∧
    (doRewind s).LastPos = 0 ∧ (doRewind s).PlayTime = 0 ∧
    (doRewind s).pauseOffsetTime = 0 ∧
    (doRewind s).packetReader.packetsRead = 0 :=
  ⟨rfl, rfl, rfl, rfl, rfl, rfl⟩

/-- C7: every resize notification marks all tiles of the 4×6 grid dirty,
whatever the prior state and window size. -/
theorem doResize_marks_all_dirty (s : CdgState) (winWidth winHeight : ℤ)
    (row : Fin TILES_PER_COL) (col : Fin TILES_PER_ROW) :
    (doResize s winWidth winHeight).packetReader.tiles row col = true :=
  rfl

/-- C5: no player operation other than an explicit rewind ever decreases
the consumed-packet count; in particular a poll adds a non-negative number
of packets to it. -/
theorem cdgReadPackets_never_decreases (s : CdgState) (op : PlayerOp)
    (h : op ≠ PlayerOp.rewind) :
    s.cdgReadPackets ≤ (applyOp s op).cdgReadPackets := by
  cases op with
  | poll pos => exact doStuff_mono s pos
  | pause t =>
    simp only [applyOp, doPause]; split_ifs <;> exact le_refl _
  | unpause t =>
    simp only [applyOp, doUnpause]; split_ifs <;> exact le_refl _
  | resize w h' =>
    simp only [applyOp, doResize, computeDisplaySize]
    split_ifs <;> exact le_refl _
  | displayUpdate => exact le_of_eq (cdgDisplayUpdate_cdgReadPackets s).symm
  | rewind => exact absurd rfl h

/-- Witness for C5 at a concrete state and operation. -/
theorem cdgReadPackets_never_decreases_witness :
    (PlayerOp.displayUpdate ≠ PlayerOp.rewind) ∧
    (startedState 5 10).cdgReadPackets ≤
      (applyOp (startedState 5 10) PlayerOp.displayUpdate).cdgReadPackets :=
  ⟨by decide,
   cdgReadPackets_never_decreases (startedState 5 10) PlayerOp.displayUpdate
     (by decide)⟩

/-- C1: on a poll in the playing state, the target packet count is
`floor(curr_pos * 300 / 1000)`; with `pending` the target minus the
packets consumed so far, a non-positive `pending` requests nothing and
leaves the consumed count unchanged, and a positive `pending` issues
exactly one `DoPackets` request for exactly `pending` packets. -/
theorem doStuff_pending_requests (s : CdgState) (pos : ℤ)
    (hplay : s.State = PlayState.playing) :
    (doStuffFull s pos).state.cdgPacketsDue =
      Int.fdiv (currPosOf s pos * 300) 1000 ∧
    (Int.fdiv (currPosOf s pos * 300) 1000 - s.cdgReadPackets ≤ 0 →
      (doStuffFull s pos).doPacketsCalls = [] ∧
      (doStuffFull s pos).state.cdgReadPackets = s.cdgReadPackets) ∧
    (0 < Int.fdiv (currPosOf s pos * 300) 1000 - s.cdgReadPackets →
      (doStuffFull s pos).doPacketsCalls =
        [Int.fdiv (currPosOf s pos * 300) 1000 - s.cdgReadPackets]) := by
  have hstate : (doStuffFull s pos).state =
      (checkRefresh (syncPackets s (currPosOf s pos)).1).1 := by
    simp only [doStuffFull, if_pos hplay]
  have hcalls : (doStuffFull s pos).doPacketsCalls =
      (syncPackets s (currPosOf s pos)).2.1 := by
    simp only [doStuffFull, if_pos hplay]
  refine ⟨?_, fun h => ⟨?_, ?_⟩, fun h => ?_⟩
  · rw [hstate, checkRefresh_cdgPacketsDue, syncPackets_cdgPacketsDue]
  · rw [hcalls, syncPackets_calls, if_neg (by omega)]
  · rw [hstate, checkRefresh_cdgReadPackets, syncPackets_cdgReadPackets]
    omega
  · rw [hcalls, syncPackets_calls, if_pos h]

/-- Witness for C1: a fresh playing player polled at 10 ms has three
packets pending and requests exactly those three in one call. -/
theorem doStuff_pending_requests_witness :
    (startedState 100 10).State = PlayState.playing ∧
    0 < Int.fdiv (currPosOf (startedState 100 10) 10 * 300) 1000 -
        (startedState 100 10).cdgReadPackets ∧
    (doStuffFull (startedState 100 10) 10).doPacketsCalls =
      [Int.fdiv (currPosOf (startedState 100 10) 10 * 300) 1000 -
        (startedState 100 10).cdgReadPackets] :=
  ⟨rfl, by decide,
   (doStuff_pending_requests (startedState 100 10) 10 rfl).2.2 (by decide)⟩

/-- C6: whenever the reader's reported border colour differs from the
last-seen one and is non-null, `cdgDisplayUpdate` fills the whole display
with it, remembers it, and marks every tile dirty. -/
theorem cdgDisplayUpdate_border_change (s : CdgState)
    (hdiff : s.packetReader.GetBorderColour ≠ s.borderColour)
    (hsome : s.packetReader.GetBorderColour ≠ none) :
    (cdgDisplayUpdate s).displayFill = s.packetReader.GetBorderColour ∧
    (cdgDisplayUpdate s).borderColour = s.packetReader.GetBorderColour ∧
    ∀ (row : Fin TILES_PER_COL) (col : Fin TILES_PER_ROW),
      (cdgDisplayUpdate s).packetReader.tiles row col = true := by
  simp only [cdgDisplayUpdate, if_pos hdiff, if_pos hsome]
  exact ⟨trivial, trivial, fun r c => rfl⟩

/-- A player that has not yet seen a border colour while its reader reports
one, for exercising the border-change path concretely. -/
def borderState : CdgState :=
  { sampleState 5 with
    packetReader :=
      { totalPackets := 5
        packetsRead := 0
        borderColour := some (1, 2, 3)
        tiles := fun _ _ => false } }

/-- Witness for C6 at a concrete state whose reader reports a fresh,
non-null border colour. -/
theorem cdgDisplayUpdate_border_change_witness :
    (borderState.packetReader.GetBorderColour ≠ borderState.borderColour) ∧
    (borderState.packetReader.GetBorderColour ≠ none) ∧
    (cdgDisplayUpdate borderState).displayFill =
      borderState.packetReader.GetBorderColour ∧
    ∀ (row : Fin TILES_PER_COL) (col : Fin TILES_PER_ROW),
      (cdgDisplayUpdate borderState).packetReader.tiles row col = true :=
  ⟨by decide, by decide,
   (cdgDisplayUpdate_border_change borderState (by decide) (by decide)).1,
   (cdgDisplayUpdate_border_change borderState (by decide) (by decide)).2.2⟩

/-- C8: when the CDG file is missing, `__init__` reports the error exactly
once through the error-notify channel and raises, so playback never starts;
there is no retry. -/
theorem init_missing_file (isFile : String → Bool)
    (soundFileSearch : Option String) (nomusic : Bool) (zm : ZoomMode)
    (fps : ℕ) (internalOffset userOffset winWidth winHeight : ℤ)
    (totalPackets : ℕ) (fileName : String)
    (hmissing : isFile (adjustFileName fileName) = false) :
    (cdgPlayerInit isFile soundFileSearch nomusic zm fps internalOffset
        userOffset winWidth winHeight totalPackets fileName).1 =
      Except.error InitError.noSuchFile ∧
    (cdgPlayerInit isFile soundFileSearch nomusic zm fps internalOffset
        userOffset winWidth winHeight totalPackets fileName).2 =
      ["No such file: " ++ adjustFileName fileName] := by
  simp only [cdgPlayerInit, if_pos hmissing]
  exact ⟨trivial, trivial⟩

/-- Witness for C8 with a file-existence oracle that finds nothing. -/
theorem init_missing_file_witness :
    ((fun _ => false) (adjustFileName ("song.cdg")) = false) ∧
    (cdgPlayerInit (fun _ => false) none true ZoomMode.modeNone 10 0 0 640
        480 5 ("song.cdg")).1 = Except.error InitError.noSuchFile :=
  ⟨rfl,
   (init_missing_file (fun _ => false) none true ZoomMode.modeNone 10 0 0
     640 480 5 ("song.cdg") rfl).1⟩

lemma syncPackets_eof (s : CdgState) (curr : ℤ)
    (hpend : 0 < Int.fdiv (curr * 300) 1000 - s.cdgReadPackets)
    (heof : s.packetReader.totalPackets <
      s.packetReader.packetsRead +
        (Int.fdiv (curr * 300) 1000 - s.cdgReadPackets).toNat) :
    (syncPackets s curr).2.2 = PollOutcome.endOfStream ∧
    (syncPackets s curr).1.State = PlayState.stopped ∧
    (syncPackets s curr).1.packetReader.packetsRead =
      s.packetReader.totalPackets := by
  have hfalse : (s.packetReader.DoPackets
      (Int.fdiv (curr * 300) 1000 - s.cdgReadPackets).toNat).2 = false := by
    simp only [CdgPacketReader.DoPackets, decide_eq_false_iff_not]
    omega
  simp only [syncPackets, Close, if_pos hpend, hfalse, Bool.false_eq_true,
    if_false]
  refine ⟨trivial, trivial, ?_⟩
  simp only [CdgPacketReader.DoPackets]
  omega

/-- C2 (amended): when the reader signals end-of-stream before the pending
packets are delivered, the poll yields the end-of-stream outcome (distinct
from success) and playback is closed, but `cdgReadPackets` is still raised
by the full pending amount, which exceeds the number of packets actually
read from the stream. -/
theorem doStuff_end_of_stream (s : CdgState) (pos : ℤ)
    (hplay : s.State = PlayState.playing)
    (hpend : 0 < Int.fdiv (currPosOf s pos * 300) 1000 - s.cdgReadPackets)
    (heof : s.packetReader.totalPackets <
      s.packetReader.packetsRead +
        (Int.fdiv (currPosOf s pos * 300) 1000 - s.cdgReadPackets).toNat) :
    (doStuffFull s pos).outcome = PollOutcome.endOfStream ∧
    (doStuffFull s pos).state.State = PlayState.stopped ∧
    (doStuffFull s pos).state.cdgReadPackets =
      s.cdgReadPackets +
        (Int.fdiv (currPosOf s pos * 300) 1000 - s.cdgReadPackets) ∧
    ((doStuffFull s pos).state.packetReader.packetsRead : ℤ) -
        (s.packetReader.packetsRead : ℤ) <
      Int.fdiv (currPosOf s pos * 300) 1000 - s.cdgReadPackets := by
  have hstate : (doStuffFull s pos).state =
      (checkRefresh (syncPackets s (currPosOf s pos)).1).1 := by
    simp only [doStuffFull, if_pos hplay]
  have houtcome : (doStuffFull s pos).outcome =
      (syncPackets s (currPosOf s pos)).2.2 := by
    simp only [doStuffFull, if_pos hplay]
  obtain ⟨h1, h2, h3⟩ := syncPackets_eof s (currPosOf s pos) hpend heof
  refine ⟨?_, ?_, ?_, ?_⟩
  · rw [houtcome]; exact h1
  · rw [hstate, checkRefresh_State, h2]
  · rw [hstate, checkRefresh_cdgReadPackets, syncPackets_cdgReadPackets]
    omega
  · rw [hstate, checkRefresh_packetsRead, h3]
    omega

/-- Witness for the amended C2: a fresh playing player over an empty
stream polled at 100 ms hits end of stream. -/
theorem doStuff_end_of_stream_witness :
    (sampleState 0).State = PlayState.playing ∧
    0 < Int.fdiv (currPosOf (sampleState 0) 100 * 300) 1000 -
        (sampleState 0).cdgReadPackets ∧
    (sampleState 0).packetReader.totalPackets <
      (sampleState 0).packetReader.packetsRead +
        (Int.fdiv (currPosOf (sampleState 0) 100 * 300) 1000 -
          (sampleState 0).cdgReadPackets).toNat ∧
    (doStuffFull (sampleState 0) 100).outcome = PollOutcome.endOfStream :=
  ⟨rfl, by decide, by decide,
   (doStuff_end_of_stream (sampleState 0) 100 rfl (by decide)
     (by decide)).1⟩

/-- C2 counterexample: on that same poll the stream delivers zero packets,
yet the consumed count is raised to 30 — beyond the number of packets
actually read — refuting the claim as stated. -/
theorem doStuff_eof_overcount :
    (doStuffFull (sampleState 0) 100).outcome = PollOutcome.endOfStream ∧
    (doStuffFull (sampleState 0) 100).state.packetReader.packetsRead = 0 ∧
    (doStuffFull (sampleState 0) 100).state.cdgReadPackets = 30 ∧
    ¬ ((doStuffFull (sampleState 0) 100).state.cdgReadPackets ≤
        (sampleState 0).cdgReadPackets +
          (((doStuffFull (sampleState 0) 100).state.packetReader.packetsRead : ℤ) -
            ((sampleState 0).packetReader.packetsRead : ℤ))) := by
  decide

lemma scanl_head {α β : Type} (f : α → β → α) (b : α) (l : List β) :
    (List.scanl f b l).head? = some b := by
  cases l <;> simp [List.scanl_nil, List.scanl_cons]

lemma chain'_scanl_mono (ps : List ℤ) :
    ∀ s : CdgState,
      List.Chain' (fun a b => a.cdgReadPackets ≤ b.cdgReadPackets)
        (List.scanl doStuff s ps) := by
  induction ps with
  | nil => intro s; simp [List.scanl_nil]
  | cons p rest ih =>
    intro s
    rw [List.scanl_cons, List.singleton_append]
    refine List.chain'_cons'.2 ⟨?_, ih (doStuff s p)⟩
    intro y hy
    rw [scanl_head] at hy
    simp only [Option.mem_some_iff] at hy
    subst hy
    exact doStuff_mono s p

lemma scanl_counters_bounded (M : ℤ) (ps : List ℤ) :
    ∀ s : CdgState,
      s.InternalOffsetTime = 0 → s.UserOffsetTime = 0 →
      s.pauseOffsetTime = 0 →
      s.cdgReadPackets ≤ Int.fdiv (M * 300) 1000 →
      (∀ p ∈ ps, p ≤ M) →
      ∀ t ∈ List.scanl doStuff s ps,
        t.cdgReadPackets ≤ Int.fdiv (M * 300) 1000 := by
  induction ps with
  | nil =>
    intro s _ _ _ h4 _ t ht
    rw [List.scanl_nil, List.mem_singleton] at ht
    subst ht
    exact h4
  | cons p rest ih =>
    intro s h1 h2 h3 h4 h5 t ht
    rw [List.scanl_cons, List.singleton_append] at ht
    rcases List.mem_cons.1 ht with rfl | ht'
    · exact h4
    · have hcurr : currPosOf s p = p := by
        simp [currPosOf, h1, h2, h3]
      have hstep : (doStuff s p).cdgReadPackets ≤ Int.fdiv (M * 300) 1000 := by
        rw [doStuff_cdgReadPackets]
        split_ifs
        · rw [hcurr]
          refine max_le h4 (fdiv_thousand_mono ?_)
          exact mul_le_mul_of_nonneg_right (h5 p (List.mem_cons_self p rest))
            (by norm_num)
        · exact h4
      obtain ⟨o1, o2, o3⟩ := doStuff_offsets s p
      exact ih (doStuff s p) (o1.trans h1) (o2.trans h2) (o3.trans h3) hstep
        (fun q hq => h5 q (List.mem_cons_of_mem p hq)) t ht'

lemma foldr_max_nonneg (ps : List ℤ) : 0 ≤ ps.foldr max 0 := by
  induction ps with
  | nil => simp
  | cons a l ih =>
    simp only [List.foldr]
    exact le_trans ih (le_max_right a _)

lemma mem_le_foldr_max (ps : List ℤ) : ∀ p ∈ ps, p ≤ ps.foldr max 0 := by
  induction ps with
  | nil => simp
  | cons a l ih =>
    intro p hp
    rcases List.mem_cons.1 hp with rfl | hp'
    · exact le_max_left _ _
    · exact le_trans (ih p hp') (le_max_right _ _)

/-- C3: over any sequence of polls with non-decreasing elapsed times and no
intervening rewind, from a freshly started player, the consumed-packet
count is non-decreasing after each poll and never exceeds
`floor(elapsedMax * 300 / 1000)`, with `elapsedMax` the largest elapsed
time seen. -/
theorem doStuff_monotone_bounded (totalPackets fps : ℕ) (ps : List ℤ)
    (hchain : ps.Chain' (· ≤ ·)) :
    List.Chain' (fun a b => a.cdgReadPackets ≤ b.cdgReadPackets)
      (List.scanl doStuff (startedState totalPackets fps) ps) ∧
    ∀ t ∈ List.scanl doStuff (startedState totalPackets fps) ps,
      t.cdgReadPackets ≤ Int.fdiv (ps.foldr max 0 * 300) 1000 := by
  refine ⟨chain'_scanl_mono ps _, ?_⟩
  refine scanl_counters_bounded (ps.foldr max 0) ps _ rfl rfl rfl ?_
    (mem_le_foldr_max ps)
  show (0 : ℤ) ≤ _
  exact fdiv_thousand_nonneg
    (mul_nonneg (foldr_max_nonneg ps) (by norm_num))

/-- Witness for C3 on a concrete non-decreasing poll sequence. -/
theorem doStuff_monotone_bounded_witness :
    List.Chain' (· ≤ ·) ([3, 5, 5, 20] : List ℤ) ∧
    ∀ t ∈ List.scanl doStuff (startedState 100 10) [3, 5, 5, 20],
      t.cdgReadPackets ≤
        Int.fdiv (([3, 5, 5, 20] : List ℤ).foldr max 0 * 300) 1000 :=
  ⟨by simp [List.chain'_cons, List.chain'_singleton],
   (doStuff_monotone_bounded 100 10 [3, 5, 5, 20]
     (by simp [List.chain'_cons, List.chain'_singleton])).2⟩

lemma doStuffFull_refreshed (s : CdgState) (pos : ℤ) :
    (doStuffFull s pos).refreshed =
      (decide (s.State = PlayState.playing) &&
       decide (((currPosOf s pos - s.LastPos : ℤ) : ℚ) > s.ms_per_update)) := by
  by_cases h : s.State = PlayState.playing
  · rw [decide_eq_true h, Bool.true_and]
    simp only [doStuffFull, if_pos h]
    rw [checkRefresh_snd, syncPackets_curr_pos, syncPackets_LastPos,
      syncPackets_ms_per_update]
  · rw [decide_eq_false h, Bool.false_and, doStuffFull_not_playing s pos h]

lemma doStuffFull_LastPos (s : CdgState) (pos : ℤ) :
    (doStuffFull s pos).state.LastPos =
      if (doStuffFull s pos).refreshed = true then currPosOf s pos
      else s.LastPos := by
  by_cases h : s.State = PlayState.playing
  · simp only [doStuffFull, if_pos h]
    rw [checkRefresh_LastPos, checkRefresh_snd, syncPackets_curr_pos,
      syncPackets_LastPos, syncPackets_ms_per_update]
    simp only [decide_eq_true_eq]
  · rw [doStuffFull_not_playing s pos h]
    simp

lemma doStuffFull_state_ms (s : CdgState) (pos : ℤ) :
    (doStuffFull s pos).state.ms_per_update = s.ms_per_update :=
  doStuff_ms_per_update s pos

lemma doStuffFull_state_curr_pos (s : CdgState) (pos : ℤ)
    (h : s.State = PlayState.playing) :
    (doStuffFull s pos).state.curr_pos = currPosOf s pos := by
  simp only [doStuffFull, if_pos h]
  rw [checkRefresh_curr_pos, syncPackets_curr_pos]

lemma pollEvents_head_chain (ms : ℚ) (ps : List ℤ) :
    ∀ s : CdgState, s.ms_per_update = ms →
      (∀ e ∈ (pollEvents s ps).head?, ((e - s.LastPos : ℤ) : ℚ) > ms) ∧
      List.Chain' (fun a b => ((b - a : ℤ) : ℚ) > ms) (pollEvents s ps) := by
  induction ps with
  | nil =>
    intro s _
    constructor
    · intro e he
      simp [pollEvents] at he
    · simp [pollEvents]
  | cons p rest ih =>
    intro s hms
    have hms' : (doStuffFull s p).state.ms_per_update = ms :=
      (doStuffFull_state_ms s p).trans hms
    obtain ⟨ihHead, ihChain⟩ := ih (doStuffFull s p).state hms'
    by_cases hr : (doStuffFull s p).refreshed = true
    · have hand := (doStuffFull_refreshed s p).symm.trans hr
      rw [Bool.and_eq_true] at hand
      have hplay : s.State = PlayState.playing := of_decide_eq_true hand.1
      have hgt : ((currPosOf s p - s.LastPos : ℤ) : ℚ) > ms := by
        have := of_decide_eq_true hand.2
        rwa [hms] at this
      have hcurr : (doStuffFull s p).state.curr_pos = currPosOf s p :=
        doStuffFull_state_curr_pos s p hplay
      have hlast : (doStuffFull s p).state.LastPos = currPosOf s p := by
        rw [doStuffFull_LastPos, if_pos hr]
      constructor
      · intro e he
        simp only [pollEvents, hr, if_true, List.singleton_append,
          List.head?_cons, Option.mem_some_iff] at he
        subst he
        rw [hcurr]
        exact hgt
      · simp only [pollEvents, hr, if_true, List.singleton_append]
        refine List.chain'_cons'.2 ⟨?_, ihChain⟩
        intro y hy
        have h1 := ihHead y hy
        rw [hlast] at h1
        rw [hcurr]
        exact h1
    · have hlast : (doStuffFull s p).state.LastPos = s.LastPos := by
        rw [doStuffFull_LastPos, if_neg hr]
      constructor
      · intro e he
        simp only [pollEvents, hr, if_false, List.nil_append] at he
        have h1 := ihHead e he
        rwa [hlast] at h1
      · simp only [pollEvents, hr, if_false, List.nil_append]
        exact ihChain

/-- C10: screen refreshes are rate-limited independently of packet
decoding: a poll invokes the display update exactly when the player is
playing and the song position exceeds the last refresh position by more
than `ms_per_update`; the refresh then records the current position; at a
started player `ms_per_update` is `1000 / fps`; and consequently, along
any poll sequence, consecutive refresh positions differ by more than
`ms_per_update`. -/
theorem refresh_rate_limited :
    (∀ (s : CdgState) (pos : ℤ),
      (doStuffFull s pos).refreshed =
        (decide (s.State = PlayState.playing) &&
         decide (((currPosOf s pos - s.LastPos : ℤ) : ℚ) > s.ms_per_update))) ∧
    (∀ (s : CdgState) (pos : ℤ),
      (doStuffFull s pos).state.LastPos =
        if (doStuffFull s pos).refreshed = true then currPosOf s pos
        else s.LastPos) ∧
    (∀ totalPackets fps : ℕ,
      (startedState totalPackets fps).ms_per_update = 1000 / (fps : ℚ)) ∧
    (∀ (s : CdgState) (ps : List ℤ),
      List.Chain' (fun a b => ((b - a : ℤ) : ℚ) > s.ms_per_update)
        (pollEvents s ps)) :=
  ⟨fun s pos => doStuffFull_refreshed s pos,
   fun s pos => doStuffFull_LastPos s pos,
   fun _ _ => rfl,
   fun s ps => (pollEvents_head_chain s.ms_per_update ps s rfl).2⟩

end PyCdg
